import Mathlib

/-!
Verification development for the LibreOffice WASM converter wrapper
(src/lib/libreoffice/converter.ts).

The TypeScript class `LibreOfficeConverter` is shallowly embedded as pure
Lean functions over an explicit state record.  Asynchronous methods become
functions from the prior state (plus an explicit model of the ambient
browser environment and of the opaque worker-hosted engine) to a result
record containing the returned value, the successor state, and the
observable side effects (progress-callback deliveries, HEAD-fetch count,
engine invocations).  Concurrent `initialize()` callers are modelled
separately by a small-step scheduler over per-caller program counters cut
at the `await` points of the source.
-/

namespace PdfCraft

/-- `const LIBREOFFICE_PATH = '/libreoffice-wasm/'` -/
def LIBREOFFICE_PATH : String := "/libreoffice-wasm/"

/-- `const ASSET_VERSION = '20240212-3'` -/
def ASSET_VERSION : String := "20240212-3"

/-- The public `LoadProgress` shape.  The source declares `phase` as a union
of five string literals but fills it by an unchecked cast from the engine
(`info.phase as LoadProgress['phase']`), so it is embedded as `String`.
Percent is a JS number filled with integral values by the wrapper itself;
it is embedded as `Nat`. -/
structure LoadProgress where
  phase : String
  percent : Nat
  message : String
deriving DecidableEq, Repr

/-- An event emitted by the opaque engine through its `onProgress` hook. -/
structure EngineEvent where
  phase : String
  percent : Nat
  message : String
deriving DecidableEq, Repr

/-- Outcome of one `fetch(url, { method: 'HEAD' })`: either the promise
resolves with a response (carrying `ok` and `status`) or it rejects with a
network error. -/
inductive FetchOutcome where
  | response (ok : Bool) (status : Nat)
  | networkError (msg : String)
deriving DecidableEq, Repr

/-- Ambient browser state read by `checkEnvironment`:
`window.crossOriginIsolated`, `typeof SharedArrayBuffer !== 'undefined'`,
and the behaviour of `fetch` HEAD requests keyed by URL. -/
structure Env where
  crossOriginIsolated : Bool
  hasSharedArrayBuffer : Bool
  fetchHead : String → FetchOutcome

/-- The errors thrown by the wrapper.  The source throws plain `Error`s;
the constructors here record the structured content of each throw site and
`ConvError.message` below rebuilds the exact message strings. -/
inductive ConvError where
  | environment (msg : String)
  | assetHttp (file : String) (status : Nat)
  | assetNetwork (file : String) (errMsg : String)
  | engineBoot (msg : String)
  | notInitialized
  | conversion (msg : String)
deriving DecidableEq, Repr

/-- The thrown message of `new Error('SharedArrayBuffer is not available (crossOriginIsolated=...)...')`.
Only `isIsolated` is interpolated in the thrown message. -/
def environmentErrorMessage (isIsolated : Bool) : String :=
  "SharedArrayBuffer is not available (crossOriginIsolated=" ++ toString isIsolated ++
    "). Your server must set Cross-Origin-Opener-Policy and Cross-Origin-Embedder-Policy headers. See browser console for details."

/-- The message strings of each throw site of the source. -/
def ConvError.message : ConvError → String
  | ConvError.environment m => m
  | ConvError.assetHttp file status => "Required file " ++ file ++ " returned HTTP " ++ toString status
  | ConvError.assetNetwork file e => "Cannot fetch " ++ file ++ ": " ++ e
  | ConvError.engineBoot m => m
  | ConvError.notInitialized => "Converter not initialized"
  | ConvError.conversion m => m

/-- The mutable fields of `class LibreOfficeConverter`.  The engine handle
`converter : WorkerBrowserConverter | null` is embedded as `Option Unit`
(the engine itself is opaque; its behaviour is passed explicitly to each
operation). -/
structure ConverterState where
  converter : Option Unit
  initialized : Bool
  initializing : Bool
  basePath : String
deriving DecidableEq, Repr

/-- `basePath || LIBREOFFICE_PATH` — JS `||` also replaces the empty
string, which is falsy. -/
def resolveBasePath : Option String → String
  | none => LIBREOFFICE_PATH
  | some s => if s = "" then LIBREOFFICE_PATH else s

/-- The constructor `new LibreOfficeConverter(basePath?)`. -/
def mkConverter (basePath : Option String) : ConverterState :=
  { converter := none, initialized := false, initializing := false,
    basePath := resolveBasePath basePath }

/-- `isReady(): boolean` — `this.initialized && this.converter !== null`. -/
def isReady (c : ConverterState) : Bool :=
  c.initialized && c.converter.isSome

/-- The URL built for each asset: `` `${this.basePath}${file}?v=${ASSET_VERSION}` ``. -/
def assetUrl (basePath file : String) : String :=
  basePath ++ file ++ "?v=" ++ ASSET_VERSION

/-- The `files` array probed by `checkEnvironment`. -/
def requiredFiles : List String :=
  ["soffice.wasm", "soffice.data", "soffice.js", "soffice.worker.js",
   "browser.worker.global.js"]

/-- The `for (const file of files)` HEAD-probe loop of `checkEnvironment`.
Returns the first failure (HTTP non-ok status or network error) together
with the number of fetch requests issued. -/
def checkFiles (env : Env) (basePath : String) : List String → Except ConvError Unit × Nat
  | [] => (Except.ok (), 0)
  | file :: rest =>
    match env.fetchHead (assetUrl basePath file) with
    | FetchOutcome.response true _ =>
        let r := checkFiles env basePath rest
        (r.1, r.2 + 1)
    | FetchOutcome.response false status =>
        (Except.error (ConvError.assetHttp file status), 1)
    | FetchOutcome.networkError msg =>
        (Except.error (ConvError.assetNetwork file msg), 1)

/-- `private async checkEnvironment()`: the cross-origin-isolation /
SharedArrayBuffer gate (`if (!isIsolated || !hasSAB) throw ...`) followed
by the asset HEAD probes.  Second component: fetch requests issued. -/
def checkEnvironment (env : Env) (basePath : String) : Except ConvError Unit × Nat :=
  if !env.crossOriginIsolated || !env.hasSharedArrayBuffer then
    (Except.error (ConvError.environment (environmentErrorMessage env.crossOriginIsolated)), 0)
  else
    checkFiles env basePath requiredFiles

/-- One invocation of the caller-supplied progress callback, together with
the values of the `initialized` / `initializing` flags at the moment the
callback runs (an observable point: the caller's code executes there). -/
structure Delivery where
  event : LoadProgress
  initializedFlag : Bool
  initializingFlag : Bool
deriving DecidableEq, Repr

/-- Behaviour of the opaque engine during one `initialize()` run:
`events` are the `onProgress` events it emits before its `initialize()`
promise settles, `bootResult` is how that promise settles, and
`lateEvents` are stray events it emits after the wrapper's `initialize()`
has itself settled. -/
structure EngineBehavior where
  events : List EngineEvent
  bootResult : Except String Unit
  lateEvents : List EngineEvent

/-- `` `Loading conversion engine (${Math.round(info.percent)}%)...` `` —
percents are embedded as naturals, on which `Math.round` is the
identity. -/
def simplifiedMessage (percent : Nat) : String :=
  "Loading conversion engine (" ++ toString percent ++ "%)..."

/-- The `onProgress` closure installed on the engine:
`if (progressCallback && !this.initialized) progressCallback({...})`.
`hasCallback` is whether the (mutable local) `progressCallback` is still
set, `initializedNow` the value of `this.initialized` when the event
arrives. -/
def forwardEvent (hasCallback : Bool) (initializedNow : Bool) (e : EngineEvent) :
    Option LoadProgress :=
  if hasCallback && !initializedNow then
    some { phase := e.phase, percent := e.percent, message := simplifiedMessage e.percent }
  else none

/-- Result of one `initialize()` run. -/
structure InitResult where
  result : Except ConvError Unit
  state : ConverterState
  deliveries : List Delivery
  fetches : Nat

/-- `async initialize(onProgress?)`, run sequentially (no interleaved
callers; those are modelled by `callerStep` below).  `hasCallback` is
whether the caller supplied `onProgress`.  Faithful points: the early
returns on `initialized` / `initializing`; `initializing := true` before
the first callback; the env-check failure leaves `converter` untouched;
an engine-boot failure leaves the freshly assigned `converter` handle in
place (only the `finally` clears `initializing`); on success the
`initialized` flag is set *before* the final `ready` callback runs while
`initializing` is still `true`, then the callback reference is nulled,
then the `finally` clears `initializing`, so late engine events are
dropped by the `forwardEvent` guard. -/
def initializeConv (c : ConverterState) (env : Env) (eng : EngineBehavior)
    (hasCallback : Bool) : InitResult :=
  if c.initialized then
    { result := Except.ok (), state := c, deliveries := [], fetches := 0 }
  else if c.initializing then
    -- the polling wait; once the in-flight run clears the flag, `return;`
    { result := Except.ok (), state := c, deliveries := [], fetches := 0 }
  else
    let d0 : List Delivery :=
      if hasCallback then
        [{ event := { phase := "loading", percent := 0, message := "Checking environment..." },
           initializedFlag := false, initializingFlag := true }]
      else []
    match (checkEnvironment env c.basePath).1 with
    | Except.error e =>
        { result := Except.error e, state := { c with initializing := false },
          deliveries := d0, fetches := (checkEnvironment env c.basePath).2 }
    | Except.ok _ =>
        let d1 := d0 ++
          (if hasCallback then
            [{ event := { phase := "loading", percent := 5, message := "Loading conversion engine..." },
               initializedFlag := false, initializingFlag := true }]
          else [])
        let bootDeliveries := eng.events.filterMap fun e =>
          (forwardEvent hasCallback false e).map fun lp =>
            ({ event := lp, initializedFlag := false, initializingFlag := true } : Delivery)
        match eng.bootResult with
        | Except.error m =>
            -- after the failure the callback reference is NOT nulled and
            -- `initialized` stays false, so stray engine events still pass
            -- the forward guard
            let lateDeliveries := eng.lateEvents.filterMap fun e =>
              (forwardEvent hasCallback false e).map fun lp =>
                ({ event := lp, initializedFlag := false, initializingFlag := false } : Delivery)
            { result := Except.error (ConvError.engineBoot m),
              state := { c with converter := some (), initializing := false },
              deliveries := d1 ++ bootDeliveries ++ lateDeliveries,
              fetches := (checkEnvironment env c.basePath).2 }
        | Except.ok _ =>
            let dReady : List Delivery :=
              if hasCallback then
                [{ event := { phase := "ready", percent := 100, message := "Conversion engine ready!" },
                   initializedFlag := true, initializingFlag := true }]
              else []
            -- `progressCallback = undefined` and `this.initialized` both
            -- block late events
            let lateDeliveries := eng.lateEvents.filterMap fun e =>
              (forwardEvent false true e).map fun lp =>
                ({ event := lp, initializedFlag := true, initializingFlag := false } : Delivery)
            { result := Except.ok (),
              state := { c with converter := some (), initialized := true, initializing := false },
              deliveries := d1 ++ bootDeliveries ++ dReady ++ lateDeliveries,
              fetches := (checkEnvironment env c.basePath).2 }

/-- The last field of `name.split('.')`, i.e. `split('.').pop()`: the
suffix of the name after its last dot (the whole name when it contains no
dot, empty when the name ends with a dot or is empty).  Computed as the
source computes it, field by field, resetting the accumulator at every
dot. -/
def lastComponent (l : List Char) : List Char :=
  l.foldl (fun acc c => if c = '.' then [] else acc ++ [c]) []

/-- `file.name.split('.').pop()?.toLowerCase() || ''` — `pop()` on a
`split` result is never `undefined`, and `|| ''` maps only the (already
empty) empty string to itself, so the expression is the lower-cased last
dot-separated component. -/
def extOf (name : String) : String :=
  String.mk ((lastComponent name.data).map Char.toLower)

/-- The caller-supplied `File`: its `name` and the bytes of its
`arrayBuffer()`. -/
structure FileInput where
  name : String
  data : List Nat
deriving DecidableEq, Repr

/-- The argument tuple of one call to the engine primitive
`this.converter.convert(uint8Array, { outputFormat, inputFormat }, file.name)`. -/
structure ConvertCall where
  payload : List Nat
  inputFormat : String
  outputFormat : String
  filename : String
deriving DecidableEq, Repr

/-- What the engine primitive returns: `{ data, mimeType }`. -/
structure EngineConvertResult where
  data : List Nat
  mimeType : String
deriving DecidableEq, Repr

/-- The `Blob` returned by `convert` — the wrapper copies the engine's
buffer into a fresh one (`new Uint8Array(result.data)`), which in this
pure embedding is content equality. -/
structure BlobResult where
  data : List Nat
  mimeType : String
deriving DecidableEq, Repr

/-- Result of a `convert()` call: the returned/thrown value, the successor
state (the source method never writes a field, so it is always the input
state), and the engine invocation made, if any (`none` = the engine handle
was never touched). -/
structure ConvertOutcome where
  result : Except ConvError BlobResult
  state : ConverterState
  engineCall : Option ConvertCall
deriving Repr

/-- `async convert(file, outputFormat)`.  The guard is
`if (!this.converter) throw new Error('Converter not initialized')` — it
tests only the handle, not the `initialized` flag.  `engineConvert` is the
behaviour of the opaque engine primitive on the invocation. -/
def convert (c : ConverterState) (file : FileInput) (outputFormat : String)
    (engineConvert : ConvertCall → Except String EngineConvertResult) : ConvertOutcome :=
  match c.converter with
  | none =>
      { result := Except.error ConvError.notInitialized, state := c, engineCall := none }
  | some _ =>
      let ext := extOf file.name
      let call : ConvertCall :=
        { payload := file.data, inputFormat := ext, outputFormat := outputFormat,
          filename := file.name }
      match engineConvert call with
      | Except.error m =>
          { result := Except.error (ConvError.conversion m), state := c,
            engineCall := some call }
      | Except.ok r =>
          { result := Except.ok { data := r.data, mimeType := r.mimeType }, state := c,
            engineCall := some call }

/-- Result of a `destroy()` call. -/
structure DestroyOutcome where
  result : Except String Unit
  state : ConverterState
deriving Repr

/-- `async destroy()`.  The source has no try/finally: when
`await this.converter.destroy()` rejects, the assignments
`this.converter = null; this.initialized = false;` are never reached and
the rejection propagates. -/
def destroy (c : ConverterState) (engineShutdown : Except String Unit) : DestroyOutcome :=
  match c.converter with
  | none =>
      { result := Except.ok (), state := { c with converter := none, initialized := false } }
  | some _ =>
      match engineShutdown with
      | Except.error m => { result := Except.error m, state := c }
      | Except.ok _ =>
          { result := Except.ok (), state := { c with converter := none, initialized := false } }

/-- `export function getLibreOfficeConverter(basePath?)` over the
module-level `let converterInstance`.  Returns the instance handed to the
caller and the new value of the module variable. -/
def getLibreOfficeConverter (basePath : Option String)
    (converterInstance : Option ConverterState) :
    ConverterState × Option ConverterState :=
  match converterInstance with
  | none =>
      let c := mkConverter basePath
      (c, some c)
  | some c => (c, some c)

/-- One method call on the singleton instance, with the ambient inputs the
call needs. -/
inductive ConvOp where
  | initOp (env : Env) (eng : EngineBehavior) (hasCallback : Bool)
  | convertOp (file : FileInput) (outputFormat : String)
      (engineConvert : ConvertCall → Except String EngineConvertResult)
  | destroyOp (engineShutdown : Except String Unit)

/-- State effect of a method call on an instance. -/
def applyOp (c : ConverterState) : ConvOp → ConverterState
  | ConvOp.initOp env eng hasCb => (initializeConv c env eng hasCb).state
  | ConvOp.convertOp file fmt engF => (convert c file fmt engF).state
  | ConvOp.destroyOp r => (destroy c r).state

/-- A step of client code against the module: either a call to the factory
`getLibreOfficeConverter` or a method call on the (current) instance. -/
inductive ModuleOp where
  | getOp (basePath : Option String)
  | callOp (op : ConvOp)

/-- Effect of one `ModuleOp` on the module variable `converterInstance`. -/
def moduleStep (s : Option ConverterState) : ModuleOp → Option ConverterState
  | ModuleOp.getOp bp => (getLibreOfficeConverter bp s).2
  | ModuleOp.callOp op =>
    match s with
    | none => none
    | some c => some (applyOp c op)

/-- Run a sequence of module operations. -/
def moduleRun (s : Option ConverterState) (ops : List ModuleOp) : Option ConverterState :=
  ops.foldl moduleStep s

/-! ### Concurrent `initialize()` callers

JavaScript runs each `async` call synchronously up to its first `await`
and then interleaves resumptions on the event loop.  Each caller of
`initialize()` is modelled as a program counter cut at the `await` points
of the source; a schedule is the list of caller indices the event loop
resumes in order.  N concurrent calls on a fresh singleton are N callers
whose entry segments run first, in call order (that is what concurrent
same-tick calls do), followed by an arbitrary schedule.  The `await`s
inside `checkEnvironment` touch no shared flag and are folded into one
resumption. -/

/-- How one `initialize()` call settles for its caller. -/
inductive InitOutcome where
  | success
  | failure (e : ConvError)
deriving DecidableEq, Repr

/-- Program counter of one in-flight `initialize()` caller:
`entry` — the call was made but its body has not run;
`waiting` — inside the `while (this.initializing)` polling loop;
`awaitEnv` — set `initializing`, fired the first progress event, now at
`await this.checkEnvironment()`;
`awaitBoot` — env check passed, engine constructed, now at
`await this.converter.initialize()`;
`settled` — the caller's promise settled with the given outcome. -/
inductive CallerPC where
  | entry
  | waiting
  | awaitEnv
  | awaitBoot
  | settled (o : InitOutcome)
deriving DecidableEq, Repr

/-- Shared state plus per-caller program counters.  `boots` counts how
many times the underlying engine boot procedure was started. -/
structure ConcState where
  conv : ConverterState
  callers : List CallerPC
  boots : Nat
deriving DecidableEq, Repr

/-- Resume caller `i` for one segment (no-op when `i` is out of range or
the caller has settled).  Each branch is the code between two `await`
points of the source. -/
def callerStep (env : Env) (boot : Except String Unit) (s : ConcState) (i : Nat) : ConcState :=
  match s.callers.get? i with
  | none => s
  | some CallerPC.entry =>
      if s.conv.initialized then
        { s with callers := s.callers.set i (CallerPC.settled InitOutcome.success) }
      else if s.conv.initializing then
        { s with callers := s.callers.set i CallerPC.waiting }
      else
        { s with conv := { s.conv with initializing := true },
                 callers := s.callers.set i CallerPC.awaitEnv }
  | some CallerPC.waiting =>
      -- one iteration of `while (this.initializing) await sleep(100);`
      -- after the loop the method does `return;` — success, whatever the
      -- outcome of the initialization it waited for
      if s.conv.initializing then s
      else { s with callers := s.callers.set i (CallerPC.settled InitOutcome.success) }
  | some CallerPC.awaitEnv =>
      match (checkEnvironment env s.conv.basePath).1 with
      | Except.error e =>
          { s with conv := { s.conv with initializing := false },
                   callers := s.callers.set i (CallerPC.settled (InitOutcome.failure e)) }
      | Except.ok _ =>
          { s with conv := { s.conv with converter := some () },
                   boots := s.boots + 1,
                   callers := s.callers.set i CallerPC.awaitBoot }
  | some CallerPC.awaitBoot =>
      match boot with
      | Except.error m =>
          { s with conv := { s.conv with initializing := false },
                   callers := s.callers.set i
                     (CallerPC.settled (InitOutcome.failure (ConvError.engineBoot m))) }
      | Except.ok _ =>
          { s with conv := { s.conv with initialized := true, initializing := false },
                   callers := s.callers.set i (CallerPC.settled InitOutcome.success) }
  | some (CallerPC.settled _) => s

/-- Run a schedule of caller resumptions. -/
def schedRun (env : Env) (boot : Except String Unit) (s : ConcState) (sched : List Nat) :
    ConcState :=
  sched.foldl (callerStep env boot) s

/-- A fresh singleton with `n` pending concurrent callers. -/
def freshConc (n : Nat) (basePath : Option String) : ConcState :=
  { conv := mkConverter basePath, callers := List.replicate n CallerPC.entry, boots := 0 }

/-- The indices `s, s+1, ..., s+k-1`: the order in which the event loop
runs the entry segments of same-tick calls. -/
def upFrom (s : Nat) : Nat → List Nat
  | 0 => []
  | k + 1 => s :: upFrom (s + 1) k

/-- `n` concurrent `initialize()` calls on a fresh singleton: the `n`
entry segments run first in call order, then the event loop interleaves
the resumptions according to `sched`. -/
def concurrentRun (n : Nat) (basePath : Option String) (env : Env)
    (boot : Except String Unit) (sched : List Nat) : ConcState :=
  schedRun env boot (freshConc n basePath) (upFrom 0 n ++ sched)

/-- The outcome the caller that actually performs the bootstrap observes:
the environment-check error, else the engine-boot error, else success. -/
def expectedOutcome (env : Env) (basePath : String) (boot : Except String Unit) : InitOutcome :=
  match (checkEnvironment env basePath).1 with
  | Except.error e => InitOutcome.failure e
  | Except.ok _ =>
    match boot with
    | Except.error m => InitOutcome.failure (ConvError.engineBoot m)
    | Except.ok _ => InitOutcome.success

/-- How many engine boots a completed bootstrap attempt performs: one iff
the environment check passes. -/
def expectedBoots (env : Env) (basePath : String) : Nat :=
  match (checkEnvironment env basePath).1 with
  | Except.error _ => 0
  | Except.ok _ => 1

/-- A non-booting caller is either still polling or settled successfully. -/
def waiterOK (pc : CallerPC) : Prop :=
  pc = CallerPC.waiting ∨ pc = CallerPC.settled InitOutcome.success

/-! ### Concrete fixtures used by counterexamples and witnesses -/

/-- A healthy browser environment: cross-origin isolated, with
`SharedArrayBuffer`, every asset HEAD probe answering 200 OK. -/
def goodEnv : Env :=
  { crossOriginIsolated := true, hasSharedArrayBuffer := true,
    fetchHead := fun _ => FetchOutcome.response true 200 }

/-- An environment that is not cross-origin isolated (so
`SharedArrayBuffer` checks fail) but whose assets are all reachable. -/
def notIsolatedEnv : Env :=
  { crossOriginIsolated := false, hasSharedArrayBuffer := true,
    fetchHead := fun _ => FetchOutcome.response true 200 }

/-- A healthy environment except that the data bundle returns HTTP 404. -/
def data404Env : Env :=
  { crossOriginIsolated := true, hasSharedArrayBuffer := true,
    fetchHead := fun url =>
      if url = assetUrl LIBREOFFICE_PATH "soffice.data" then FetchOutcome.response false 404
      else FetchOutcome.response true 200 }

/-- An engine whose boot promise rejects. -/
def bootFailEngine : EngineBehavior :=
  { events := [], bootResult := Except.error "boot failed", lateEvents := [] }

/-- An engine that boots silently and successfully. -/
def quietEngine : EngineBehavior :=
  { events := [], bootResult := Except.ok (), lateEvents := [] }

/-- The instance state left behind by an `initialize()` whose engine boot
failed: the handle is assigned but `initialized` is false. -/
def postBootFailure : ConverterState :=
  (initializeConv (mkConverter none) goodEnv bootFailEngine false).state

/-- A `Ready` instance state. -/
def readyState : ConverterState :=
  { converter := some (), initialized := true, initializing := false,
    basePath := LIBREOFFICE_PATH }

/-- A stub engine conversion primitive that echoes its payload as a PDF. -/
def echoEngine : ConvertCall → Except String EngineConvertResult :=
  fun call => Except.ok { data := call.payload, mimeType := "application/pdf" }

/-! ### Helper lemmas -/

theorem convert_state_eq (c : ConverterState) (file : FileInput) (fmt : String)
    (engF : ConvertCall → Except String EngineConvertResult) :
    (convert c file fmt engF).state = c := by
  unfold convert
  repeat' split
  all_goals try rfl
  all_goals (dsimp only; split <;> rfl)

theorem initializeConv_basePath (c : ConverterState) (env : Env) (eng : EngineBehavior)
    (b : Bool) : (initializeConv c env eng b).state.basePath = c.basePath := by
  unfold initializeConv
  repeat' split
  all_goals rfl

theorem destroy_basePath (c : ConverterState) (r : Except String Unit) :
    (destroy c r).state.basePath = c.basePath := by
  unfold destroy
  repeat' split
  all_goals rfl

theorem applyOp_basePath (c : ConverterState) (op : ConvOp) :
    (applyOp c op).basePath = c.basePath := by
  cases op with
  | initOp env eng b => exact initializeConv_basePath c env eng b
  | convertOp file fmt engF => rw [applyOp, convert_state_eq]
  | destroyOp r => exact destroy_basePath c r

theorem moduleRun_some (ops : List ModuleOp) (c : ConverterState) :
    ∃ c2, moduleRun (some c) ops = some c2 ∧ c2.basePath = c.basePath := by
  induction ops generalizing c with
  | nil => exact ⟨c, rfl, rfl⟩
  | cons op t ih =>
    cases op with
    | getOp bp =>
      have hstep : moduleStep (some c) (ModuleOp.getOp bp) = some c := rfl
      have : moduleRun (some c) (ModuleOp.getOp bp :: t) = moduleRun (some c) t := by
        simp [moduleRun, List.foldl_cons, hstep]
      rw [this]
      exact ih c
    | callOp o =>
      have hstep : moduleStep (some c) (ModuleOp.callOp o) = some (applyOp c o) := rfl
      have heq : moduleRun (some c) (ModuleOp.callOp o :: t) = moduleRun (some (applyOp c o)) t := by
        simp [moduleRun, List.foldl_cons, hstep]
      obtain ⟨c2, h1, h2⟩ := ih (applyOp c o)
      exact ⟨c2, heq ▸ h1, h2.trans (applyOp_basePath c o)⟩

theorem foldl_lastComponent_no_dot (l : List Char) (acc : List Char)
    (h : ('.' : Char) ∉ l) :
    l.foldl (fun acc c => if c = '.' then [] else acc ++ [c]) acc = acc ++ l := by
  induction l generalizing acc with
  | nil => simp
  | cons c t ih =>
    simp only [List.mem_cons, not_or] at h
    have hc : ¬(c = '.') := fun e => h.1 e.symm
    simp only [List.foldl_cons, if_neg hc]
    rw [ih (acc ++ [c]) h.2]
    simp

theorem lastComponent_no_dot (l : List Char) (h : ('.' : Char) ∉ l) :
    lastComponent l = l := by
  unfold lastComponent
  rw [foldl_lastComponent_no_dot l [] h]
  simp

theorem lastComponent_after_dot (a b : List Char) :
    lastComponent (a ++ '.' :: b) = lastComponent b := by
  unfold lastComponent
  rw [List.foldl_append]
  simp

/-! ### C1 — convert() guard -/

/-- C1, counterexample.  The claim states that whenever the state is not
`Ready`, `convert()` fails with `NotInitializedError` and never touches an
engine handle.  False: after an `initialize()` whose engine boot failed,
the instance is not `Ready` (`isReady` is `false`, no `initialize()` ever
completed successfully), yet `convert()` does not fail with
`NotInitializedError` — it invokes the engine handle left behind by the
failed initialization. -/
theorem convert_not_ready_engine_invoked :
    isReady postBootFailure = false ∧
    (convert postBootFailure ⟨"a.docx", [1, 2, 3]⟩ "pdf" echoEngine).engineCall =
      some { payload := [1, 2, 3], inputFormat := "docx", outputFormat := "pdf",
             filename := "a.docx" } ∧
    (convert postBootFailure ⟨"a.docx", [1, 2, 3]⟩ "pdf" echoEngine).result =
      Except.ok { data := [1, 2, 3], mimeType := "application/pdf" } :=
  ⟨rfl, rfl, rfl⟩

/-- C1, amended.  `convert()` fails with `NotInitializedError` — and then
never invokes the engine — exactly when the engine handle is `null`; when
the handle is set it always proceeds to the engine, even in states that
are not `Ready` (such as after an engine-boot failure, which leaves the
handle assigned). -/
theorem convert_guard_amended (c : ConverterState) (file : FileInput) (fmt : String)
    (engF : ConvertCall → Except String EngineConvertResult) :
    (c.converter = none →
      (convert c file fmt engF).result = Except.error ConvError.notInitialized ∧
      (convert c file fmt engF).engineCall = none) ∧
    (∀ u, c.converter = some u →
      (convert c file fmt engF).engineCall =
        some { payload := file.data, inputFormat := extOf file.name, outputFormat := fmt,
               filename := file.name }) := by
  constructor
  · intro h
    unfold convert
    rw [h]
    exact ⟨rfl, rfl⟩
  · intro u h
    unfold convert
    rw [h]
    dsimp only
    split <;> rfl

/-- C1 witness: on a freshly constructed instance the guard fires and the
engine is never invoked. -/
theorem convert_guard_amended_witness :
    (convert (mkConverter none) ⟨"a.docx", [1]⟩ "pdf" echoEngine).result =
      Except.error ConvError.notInitialized ∧
    (convert (mkConverter none) ⟨"a.docx", [1]⟩ "pdf" echoEngine).engineCall = none :=
  (convert_guard_amended (mkConverter none) ⟨"a.docx", [1]⟩ "pdf" echoEngine).1 rfl

/-! ### C2 — initialize() failure resets state -/

/-- C2, confirmed.  Every `initialize()` run that rejects leaves
`initializing = false` (the `finally` block), `initialized = false`, and
no observable `Ready` state, so a later retry enters a fresh cycle (both
early-return guards are false afterwards). -/
theorem initialize_failure_resets_state (c : ConverterState) (env : Env)
    (eng : EngineBehavior) (hasCb : Bool) (e : ConvError)
    (h : (initializeConv c env eng hasCb).result = Except.error e) :
    (initializeConv c env eng hasCb).state.initializing = false ∧
    (initializeConv c env eng hasCb).state.initialized = false ∧
    isReady (initializeConv c env eng hasCb).state = false := by
  cases hc : c.initialized with
  | true =>
    exfalso
    unfold initializeConv at h
    rw [hc] at h
    simp at h
  | false =>
    cases hi : c.initializing with
    | true =>
      exfalso
      unfold initializeConv at h
      rw [hc, hi] at h
      simp at h
    | false =>
      unfold initializeConv at h ⊢
      rw [hc, hi] at h ⊢
      simp only [Bool.false_eq_true, if_false] at h ⊢
      cases he : (checkEnvironment env c.basePath).1 with
      | error e2 => exact ⟨rfl, rfl, rfl⟩
      | ok u =>
        rw [he] at h
        cases hb : eng.bootResult with
        | error m => exact ⟨rfl, rfl, rfl⟩
        | ok v =>
          exfalso
          rw [hb] at h
          simp at h

/-- C2 witness: a run failing at the environment-check step. -/
theorem initialize_failure_resets_state_witness :
    (initializeConv (mkConverter none) notIsolatedEnv quietEngine true).state.initializing = false ∧
    (initializeConv (mkConverter none) notIsolatedEnv quietEngine true).state.initialized = false ∧
    isReady (initializeConv (mkConverter none) notIsolatedEnv quietEngine true).state = false :=
  initialize_failure_resets_state (mkConverter none) notIsolatedEnv quietEngine true
    (ConvError.environment (environmentErrorMessage false)) rfl

/-! ### C3 — destroy() -/

/-- C3, counterexample.  The claim states `destroy()` never fails
observably and always clears the handle and the flag, even when the
engine's shutdown reports an error.  False: the source has no try/finally,
so a rejecting `this.converter.destroy()` propagates and the two clearing
assignments never run. -/
theorem destroy_shutdown_error_propagates :
    (destroy readyState (Except.error "shutdown failed")).result =
      Except.error "shutdown failed" ∧
    (destroy readyState (Except.error "shutdown failed")).state.converter = some () ∧
    (destroy readyState (Except.error "shutdown failed")).state.initialized = true :=
  ⟨rfl, rfl, rfl⟩

/-- C3, amended.  `destroy()` returns normally and clears the handle and
the `initialized` flag whenever no engine handle exists or the engine's
shutdown succeeds; when a handle exists and its shutdown reports an error,
`destroy()` propagates that error and leaves the handle and the flag
unchanged. -/
theorem destroy_amended (c : ConverterState) :
    ((destroy c (Except.ok ())).result = Except.ok () ∧
      (destroy c (Except.ok ())).state.converter = none ∧
      (destroy c (Except.ok ())).state.initialized = false) ∧
    (c.converter = none → ∀ r,
      (destroy c r).result = Except.ok () ∧
      (destroy c r).state.converter = none ∧
      (destroy c r).state.initialized = false) ∧
    (∀ u m, c.converter = some u →
      (destroy c (Except.error m)).result = Except.error m ∧
      (destroy c (Except.error m)).state = c) := by
  refine ⟨?_, ?_, ?_⟩
  · cases hc : c.converter <;> (unfold destroy; rw [hc]; exact ⟨rfl, rfl, rfl⟩)
  · intro h r
    unfold destroy
    rw [h]
    exact ⟨rfl, rfl, rfl⟩
  · intro u m h
    unfold destroy
    rw [h]
    exact ⟨rfl, rfl⟩

/-- C3 witness: the clearing path on a ready instance, and the
error-propagation path. -/
theorem destroy_amended_witness :
    ((destroy readyState (Except.ok ())).result = Except.ok () ∧
      (destroy readyState (Except.ok ())).state.converter = none ∧
      (destroy readyState (Except.ok ())).state.initialized = false) ∧
    ((destroy readyState (Except.error "x")).result = Except.error "x" ∧
      (destroy readyState (Except.error "x")).state = readyState) :=
  ⟨(destroy_amended readyState).1, (destroy_amended readyState).2.2 () "x" rfl⟩

/-! ### C5 — input-format inference -/

/-- C5, counterexample.  The claim states the inferred format is the empty
string when the filename has no extension.  False: for the dot-free
filename `README` the source's `split('.').pop()` returns the whole name,
so the engine is sent `readme`, not the empty string. -/
theorem extension_no_dot_counterexample :
    (convert readyState ⟨"README", [1]⟩ "pdf" echoEngine).engineCall =
      some { payload := [1], inputFormat := "readme", outputFormat := "pdf",
             filename := "README" } ∧
    extOf "README" = "readme" ∧ ("readme" : String) ≠ "" :=
  ⟨rfl, rfl, by decide⟩

/-- C5, amended.  The inferred input format sent to the engine is the last
dot-separated component of the filename, lower-cased: when the filename
contains a dot this is the extension (the part after the last dot); when
it contains no dot it is the whole filename lower-cased (empty only for
the empty filename), not the empty string. -/
theorem extension_inference_amended :
    (∀ (c : ConverterState) (u : Unit) (file : FileInput) (fmt : String)
        (engF : ConvertCall → Except String EngineConvertResult), c.converter = some u →
      (convert c file fmt engF).engineCall =
        some { payload := file.data, inputFormat := extOf file.name, outputFormat := fmt,
               filename := file.name }) ∧
    (∀ a b : List Char, ('.' : Char) ∉ b →
      extOf (String.mk (a ++ '.' :: b)) = String.mk (b.map Char.toLower)) ∧
    (∀ l : List Char, ('.' : Char) ∉ l →
      extOf (String.mk l) = String.mk (l.map Char.toLower)) := by
  refine ⟨?_, ?_, ?_⟩
  · intro c u file fmt engF h
    unfold convert
    rw [h]
    dsimp only
    split <;> rfl
  · intro a b h
    unfold extOf
    have hd : (String.mk (a ++ '.' :: b)).data = a ++ '.' :: b := rfl
    rw [hd, lastComponent_after_dot, lastComponent_no_dot b h]
  · intro l h
    unfold extOf
    have hd : (String.mk l).data = l := rfl
    rw [hd, lastComponent_no_dot l h]

/-- C5 witness: a filename with an upper-case extension. -/
theorem extension_inference_amended_witness :
    extOf (String.mk (['a'] ++ '.' :: ['D', 'o', 'c', 'X'])) =
      String.mk (['D', 'o', 'c', 'X'].map Char.toLower) :=
  extension_inference_amended.2.1 ['a'] ['D', 'o', 'c', 'X'] (by decide)

/-! ### C7 — environment gate before any fetch -/

/-- C7, confirmed.  In any environment that is not cross-origin isolated
or lacks `SharedArrayBuffer`, `initialize()` rejects with the
`EnvironmentError` (carrying the exact message of the source's throw) and
the environment observes zero fetch requests; the engine is never
constructed. -/
theorem initialize_env_gate (bp : Option String) (env : Env) (eng : EngineBehavior)
    (hasCb : Bool)
    (h : env.crossOriginIsolated = false ∨ env.hasSharedArrayBuffer = false) :
    (initializeConv (mkConverter bp) env eng hasCb).result =
      Except.error (ConvError.environment (environmentErrorMessage env.crossOriginIsolated)) ∧
    (initializeConv (mkConverter bp) env eng hasCb).fetches = 0 ∧
    (initializeConv (mkConverter bp) env eng hasCb).state.converter = none := by
  have hgate : (!env.crossOriginIsolated || !env.hasSharedArrayBuffer) = true := by
    rcases h with h | h <;> simp [h]
  have hce : checkEnvironment env (mkConverter bp).basePath =
      (Except.error (ConvError.environment (environmentErrorMessage env.crossOriginIsolated)), 0) := by
    unfold checkEnvironment
    rw [if_pos hgate]
  have h0 : (mkConverter bp).initialized = false := rfl
  have h1 : (mkConverter bp).initializing = false := rfl
  unfold initializeConv
  rw [h0, h1]
  simp only [Bool.false_eq_true, if_false]
  rw [hce]
  exact ⟨rfl, rfl, rfl⟩

/-- C7 witness: a non-isolated environment with reachable assets. -/
theorem initialize_env_gate_witness :
    (initializeConv (mkConverter none) notIsolatedEnv quietEngine true).result =
      Except.error (ConvError.environment (environmentErrorMessage false)) ∧
    (initializeConv (mkConverter none) notIsolatedEnv quietEngine true).fetches = 0 ∧
    (initializeConv (mkConverter none) notIsolatedEnv quietEngine true).state.converter = none :=
  initialize_env_gate none notIsolatedEnv quietEngine true (Or.inl rfl)

/-! ### C8 — asset probe aborts before engine construction -/

theorem checkFiles_prefix_ok (env : Env) (bp : String) (pre rest : List String)
    (hpre : ∀ g ∈ pre, ∃ st, env.fetchHead (assetUrl bp g) = FetchOutcome.response true st) :
    checkFiles env bp (pre ++ rest) =
      ((checkFiles env bp rest).1, (checkFiles env bp rest).2 + pre.length) := by
  induction pre with
  | nil => simp
  | cons g t ih =>
    obtain ⟨st, hst⟩ := hpre g (List.mem_cons_self g t)
    have ht : ∀ x ∈ t, ∃ st, env.fetchHead (assetUrl bp x) = FetchOutcome.response true st :=
      fun x hx => hpre x (List.mem_cons_of_mem g hx)
    have hcons : (g :: t) ++ rest = g :: (t ++ rest) := rfl
    rw [hcons]
    simp only [checkFiles]
    rw [hst]
    dsimp only
    rw [ih ht]
    simp [Nat.add_assoc]

/-- C8, confirmed.  When the environment gate passes and the first failing
asset in the probe order is `f` (every earlier required file answers OK),
`initialize()` rejects with an `AssetUnavailableError` carrying exactly
that asset's name and the HTTP status (resp. the network error) observed,
and the engine is never constructed (the handle stays `null`). -/
theorem initialize_asset_gate (bp : Option String) (env : Env) (eng : EngineBehavior)
    (hasCb : Bool) (pre post : List String) (f : String)
    (hsplit : requiredFiles = pre ++ f :: post)
    (hiso : env.crossOriginIsolated = true) (hsab : env.hasSharedArrayBuffer = true)
    (hpre : ∀ g ∈ pre, ∃ st,
      env.fetchHead (assetUrl (resolveBasePath bp) g) = FetchOutcome.response true st) :
    (∀ st, env.fetchHead (assetUrl (resolveBasePath bp) f) = FetchOutcome.response false st →
      (initializeConv (mkConverter bp) env eng hasCb).result =
        Except.error (ConvError.assetHttp f st) ∧
      (initializeConv (mkConverter bp) env eng hasCb).state.converter = none ∧
      ConvError.message (ConvError.assetHttp f st) =
        "Required file " ++ f ++ " returned HTTP " ++ toString st) ∧
    (∀ m, env.fetchHead (assetUrl (resolveBasePath bp) f) = FetchOutcome.networkError m →
      (initializeConv (mkConverter bp) env eng hasCb).result =
        Except.error (ConvError.assetNetwork f m) ∧
      (initializeConv (mkConverter bp) env eng hasCb).state.converter = none ∧
      ConvError.message (ConvError.assetNetwork f m) =
        "Cannot fetch " ++ f ++ ": " ++ m) := by
  have hgate : (!env.crossOriginIsolated || !env.hasSharedArrayBuffer) = false := by
    rw [hiso, hsab]
    rfl
  have hbase : (mkConverter bp).basePath = resolveBasePath bp := rfl
  have h0 : (mkConverter bp).initialized = false := rfl
  have h1 : (mkConverter bp).initializing = false := rfl
  constructor
  · intro st hf
    have hfail : checkFiles env (resolveBasePath bp) (f :: post) =
        (Except.error (ConvError.assetHttp f st), 1) := by
      unfold checkFiles
      rw [hf]
    have hce : (checkEnvironment env (mkConverter bp).basePath).1 =
        Except.error (ConvError.assetHttp f st) := by
      rw [hbase]
      unfold checkEnvironment
      rw [hgate]
      simp only [Bool.false_eq_true, if_false]
      rw [hsplit, checkFiles_prefix_ok env (resolveBasePath bp) pre (f :: post) hpre, hfail]
    unfold initializeConv
    rw [h0, h1]
    simp only [Bool.false_eq_true, if_false]
    rw [hce]
    exact ⟨rfl, rfl, rfl⟩
  · intro m hf
    have hfail : checkFiles env (resolveBasePath bp) (f :: post) =
        (Except.error (ConvError.assetNetwork f m), 1) := by
      unfold checkFiles
      rw [hf]
    have hce : (checkEnvironment env (mkConverter bp).basePath).1 =
        Except.error (ConvError.assetNetwork f m) := by
      rw [hbase]
      unfold checkEnvironment
      rw [hgate]
      simp only [Bool.false_eq_true, if_false]
      rw [hsplit, checkFiles_prefix_ok env (resolveBasePath bp) pre (f :: post) hpre, hfail]
    unfold initializeConv
    rw [h0, h1]
    simp only [Bool.false_eq_true, if_false]
    rw [hce]
    exact ⟨rfl, rfl, rfl⟩

/-- C8 witness: the data bundle answers 404 while the WASM binary (probed
before it) answers 200. -/
theorem initialize_asset_gate_witness :
    (initializeConv (mkConverter none) data404Env quietEngine true).result =
      Except.error (ConvError.assetHttp "soffice.data" 404) ∧
    (initializeConv (mkConverter none) data404Env quietEngine true).state.converter = none ∧
    ConvError.message (ConvError.assetHttp "soffice.data" 404) =
      "Required file " ++ "soffice.data" ++ " returned HTTP " ++ toString 404 :=
  (initialize_asset_gate none data404Env quietEngine true ["soffice.wasm"]
    ["soffice.js", "soffice.worker.js", "browser.worker.global.js"] "soffice.data"
    rfl rfl rfl
    (by
      intro g hg
      have hgw : g = "soffice.wasm" := by
        simpa using hg
      subst hgw
      exact ⟨200, by decide⟩)).1 404 (by decide)

/-! ### C10 — singleton factory -/

/-- C10, confirmed.  After the first `getLibreOfficeConverter(basePath?)`
call creates the instance, every later factory call — whatever base path
it passes, and whatever method calls (including `destroy()` and
re-initialization) happen in between — returns exactly the stored
instance and leaves the module variable unchanged, and the instance's
base path stays fixed at the first call's argument (or the default). -/
theorem getLibreOfficeConverter_singleton (bp0 : Option String) (ops : List ModuleOp) :
    ∃ c, moduleRun (moduleStep none (ModuleOp.getOp bp0)) ops = some c ∧
      c.basePath = resolveBasePath bp0 ∧
      (∀ bp2, getLibreOfficeConverter bp2 (some c) = (c, some c)) ∧
      (getLibreOfficeConverter bp0 none).1 = mkConverter bp0 := by
  have h0 : moduleStep none (ModuleOp.getOp bp0) = some (mkConverter bp0) := rfl
  rw [h0]
  obtain ⟨c, h1, h2⟩ := moduleRun_some ops (mkConverter bp0)
  exact ⟨c, h1, h2.trans rfl, fun bp2 => rfl, rfl⟩

/-! ### C4 — flag exclusivity at observable points -/

theorem filterMap_forward_stopped (g : LoadProgress → Delivery) (l : List EngineEvent) :
    (l.filterMap fun e => (forwardEvent false true e).map g) = [] := by
  induction l with
  | nil => rfl
  | cons e t ih => simp [List.filterMap_cons, forwardEvent, ih]

theorem mem_filterMap_forward_flags (hb ib fl1 fl2 : Bool) (l : List EngineEvent)
    (d : Delivery)
    (hd : d ∈ l.filterMap fun e => (forwardEvent hb ib e).map
      (fun lp => ({ event := lp, initializedFlag := fl1, initializingFlag := fl2 } : Delivery))) :
    d.initializedFlag = fl1 ∧ d.initializingFlag = fl2 := by
  rcases List.mem_filterMap.mp hd with ⟨e, _, heq⟩
  rcases Option.map_eq_some'.mp heq with ⟨lp, _, hdlp⟩
  rw [← hdlp]
  exact ⟨rfl, rfl⟩

/-- C4, counterexample.  The claim states the two flags are never both
true at any observable point, including points where the progress
callback runs.  False: on a successful initialization the final
`ready`/100 callback runs after `this.initialized = true` but before the
`finally` block clears `this.initializing`, so the caller observes both
flags true at that point. -/
theorem initialize_ready_event_flags_overlap :
    (initializeConv (mkConverter none) goodEnv quietEngine true).deliveries.getLast? =
      some { event := { phase := "ready", percent := 100, message := "Conversion engine ready!" },
             initializedFlag := true, initializingFlag := true } ∧
    (initializeConv (mkConverter none) goodEnv quietEngine true).result = Except.ok () :=
  ⟨rfl, rfl⟩

/-- C4, amended.  At every observable point of every operation the two
flags are not both true, with exactly one exception: the final
`ready`/100 progress callback of a completing `initialize()`, which is
the last delivery of that run.  Moreover `initialized`, once true, is
never cleared by `initialize()` or `convert()` (only `destroy()` clears
it). -/
theorem initialize_flags_amended (c : ConverterState) (env : Env) (eng : EngineBehavior)
    (hasCb : Bool) :
    (∀ d ∈ (initializeConv c env eng hasCb).deliveries,
      d.initializedFlag = true → d.initializingFlag = true →
        d.event = { phase := "ready", percent := 100, message := "Conversion engine ready!" } ∧
        (initializeConv c env eng hasCb).deliveries.getLast? = some d) ∧
    (c.initialized = true → (initializeConv c env eng hasCb).state.initialized = true) ∧
    (∀ file fmt engF, (convert c file fmt engF).state.initialized = c.initialized) := by
  refine ⟨?_, ?_, ?_⟩
  · intro d hd h1 h2
    cases hc : c.initialized with
    | true =>
      exfalso
      unfold initializeConv at hd
      rw [hc] at hd
      simp at hd
    | false =>
      cases hi : c.initializing with
      | true =>
        exfalso
        unfold initializeConv at hd
        rw [hc, hi] at hd
        simp at hd
      | false =>
        unfold initializeConv at hd ⊢
        rw [hc, hi] at hd ⊢
        simp only [Bool.false_eq_true, if_false] at hd ⊢
        cases he : (checkEnvironment env c.basePath).1 with
        | error e2 =>
          exfalso
          rw [he] at hd
          dsimp only at hd
          cases hcb : hasCb with
          | true =>
            rw [hcb] at hd
            simp only [if_true] at hd
            rcases List.mem_singleton.mp hd with rfl
            simp at h1
          | false =>
            rw [hcb] at hd
            simp at hd
        | ok u =>
          rw [he] at hd
          cases hb : eng.bootResult with
          | error m =>
            exfalso
            rw [hb] at hd
            dsimp only at hd
            rcases List.mem_append.mp hd with hd' | hd'
            · rcases List.mem_append.mp hd' with hd'' | hd''
              · cases hcb : hasCb with
                | true =>
                  rw [hcb] at hd''
                  simp only [if_true] at hd''
                  rcases List.mem_append.mp hd'' with hd4 | hd4 <;>
                    (rcases List.mem_singleton.mp hd4 with rfl; simp at h1)
                | false =>
                  rw [hcb] at hd''
                  simp at hd''
              · have := (mem_filterMap_forward_flags hasCb false false true _ d hd'').1
                rw [h1] at this
                simp at this
            · have := (mem_filterMap_forward_flags hasCb false false false _ d hd').1
              rw [h1] at this
              simp at this
          | ok v =>
            rw [hb] at hd
            dsimp only at hd ⊢
            rw [filterMap_forward_stopped] at hd ⊢
            rcases List.mem_append.mp hd with hd' | hd'
            · rcases List.mem_append.mp hd' with hd'' | hd''
              · exfalso
                rcases List.mem_append.mp hd'' with hd3 | hd3
                · cases hcb : hasCb with
                  | true =>
                    rw [hcb] at hd3
                    simp only [if_true] at hd3
                    rcases List.mem_append.mp hd3 with hd4 | hd4 <;>
                      (rcases List.mem_singleton.mp hd4 with rfl; simp at h1)
                  | false =>
                    rw [hcb] at hd3
                    simp at hd3
                · have := (mem_filterMap_forward_flags hasCb false false true _ d hd3).1
                  rw [h1] at this
                  simp at this
              · cases hcb : hasCb with
                | true =>
                  rw [hcb] at hd''
                  simp only [if_true] at hd''
                  rcases List.mem_singleton.mp hd'' with rfl
                  refine ⟨rfl, ?_⟩
                  simp only [if_true]
                  rw [List.append_nil, List.getLast?_append_cons]
                  rfl
                | false =>
                  exfalso
                  rw [hcb] at hd''
                  simp at hd''
            · exfalso
              simp at hd'
  · intro h
    unfold initializeConv
    rw [h]
    simp only [if_true]
    exact h
  · intro file fmt engF
    rw [convert_state_eq]

/-- C4 witness: the exceptional delivery on a concrete successful run is
indeed the final `ready` event and the last delivery. -/
theorem initialize_flags_amended_witness :
    ({ event := { phase := "ready", percent := 100, message := "Conversion engine ready!" },
       initializedFlag := true, initializingFlag := true } : Delivery).event =
      { phase := "ready", percent := 100, message := "Conversion engine ready!" } ∧
    (initializeConv (mkConverter none) goodEnv quietEngine true).deliveries.getLast? =
      some { event := { phase := "ready", percent := 100, message := "Conversion engine ready!" },
             initializedFlag := true, initializingFlag := true } :=
  (initialize_flags_amended (mkConverter none) goodEnv quietEngine true).1
    { event := { phase := "ready", percent := 100, message := "Conversion engine ready!" },
      initializedFlag := true, initializingFlag := true }
    (by decide) rfl rfl

/-! ### C9 — progress callback behaviour -/

/-- The `LoadProgress` the wrapper forwards for an engine event while the
callback is live: the phase and percent verbatim, the message rewritten. -/
def forwardedEvent (e : EngineEvent) : LoadProgress :=
  { phase := e.phase, percent := e.percent, message := simplifiedMessage e.percent }

theorem filterMap_forward_active (g : LoadProgress → Delivery) (l : List EngineEvent) :
    (l.filterMap fun e => (forwardEvent true false e).map g) =
      l.map fun e => g (forwardedEvent e) := by
  induction l with
  | nil => rfl
  | cons e t ih =>
    have hstep : List.filterMap (fun e => (forwardEvent true false e).map g) (e :: t) =
        g (forwardedEvent e) :: List.filterMap (fun e => (forwardEvent true false e).map g) t := rfl
    rw [hstep, ih]
    rfl

/-- An engine that emits a decreasing percent sequence during boot. -/
def decreasingEngine : EngineBehavior :=
  { events := [{ phase := "loading", percent := 50, message := "a" },
               { phase := "loading", percent := 10, message := "b" }],
    bootResult := Except.ok (), lateEvents := [] }

/-- C9, counterexample.  The claim states the callback receives percents
in non-decreasing order on every successful initialization, for every
engine event sequence.  False: the wrapper forwards engine percents
verbatim, so an engine emitting 50 then 10 makes the caller observe
0, 5, 50, 10, 100. -/
theorem initialize_progress_not_monotone :
    (initializeConv (mkConverter none) goodEnv decreasingEngine true).result = Except.ok () ∧
    (initializeConv (mkConverter none) goodEnv decreasingEngine true).deliveries.map
        (fun d => d.event.percent) = [0, 5, 50, 10, 100] ∧
    ¬ ([0, 5, 50, 10, 100] : List Nat).Chain' (· ≤ ·) :=
  ⟨rfl, rfl, by
    intro h
    rcases List.chain'_cons.mp h with ⟨_, h⟩
    rcases List.chain'_cons.mp h with ⟨_, h⟩
    rcases List.chain'_cons.mp h with ⟨h5010, _⟩
    omega⟩

/-- C9, amended.  On every successful initialization with a live callback
the delivered events are exactly: the two wrapper loading events (0 and
5), then the engine's events verbatim (messages rewritten), then exactly
one wrapper `ready`/100 event — and nothing afterwards, whatever late
events the engine emits.  The delivered percents are non-decreasing
provided the engine's own percent sequence is non-decreasing within
[5, 100]; the `ready` phase is delivered exactly once provided the engine
does not itself emit a `ready`-phase event. -/
theorem initialize_progress_amended (bp : Option String) (env : Env) (eng : EngineBehavior)
    (henv : (checkEnvironment env (resolveBasePath bp)).1 = Except.ok ())
    (hboot : eng.bootResult = Except.ok ()) :
    (initializeConv (mkConverter bp) env eng true).deliveries.map Delivery.event =
      { phase := "loading", percent := 0, message := "Checking environment..." } ::
      { phase := "loading", percent := 5, message := "Loading conversion engine..." } ::
      (eng.events.map forwardedEvent ++
        [{ phase := "ready", percent := 100, message := "Conversion engine ready!" }]) ∧
    ((5 :: (eng.events.map EngineEvent.percent ++ [100])).Chain' (· ≤ ·) →
      ((initializeConv (mkConverter bp) env eng true).deliveries.map
        (fun d => d.event.percent)).Chain' (· ≤ ·)) ∧
    ((∀ e ∈ eng.events, e.phase ≠ "ready") →
      ((initializeConv (mkConverter bp) env eng true).deliveries.map Delivery.event).countP
        (fun ev => ev.phase == "ready") = 1) := by
  have h0 : (mkConverter bp).initialized = false := rfl
  have h1 : (mkConverter bp).initializing = false := rfl
  have hbase : (mkConverter bp).basePath = resolveBasePath bp := rfl
  have hdel : (initializeConv (mkConverter bp) env eng true).deliveries =
      ({ event := { phase := "loading", percent := 0, message := "Checking environment..." },
         initializedFlag := false, initializingFlag := true } : Delivery) ::
      ({ event := { phase := "loading", percent := 5, message := "Loading conversion engine..." },
         initializedFlag := false, initializingFlag := true } : Delivery) ::
      (eng.events.map fun e =>
        ({ event := forwardedEvent e, initializedFlag := false, initializingFlag := true } : Delivery)) ++
      [({ event := { phase := "ready", percent := 100, message := "Conversion engine ready!" },
          initializedFlag := true, initializingFlag := true } : Delivery)] := by
    unfold initializeConv
    rw [h0, h1]
    simp only [Bool.false_eq_true, if_false]
    rw [hbase, henv]
    dsimp only
    rw [hboot]
    dsimp only
    rw [filterMap_forward_stopped, filterMap_forward_active, List.append_nil]
    simp [List.append_assoc]
  have hev : (initializeConv (mkConverter bp) env eng true).deliveries.map Delivery.event =
      { phase := "loading", percent := 0, message := "Checking environment..." } ::
      { phase := "loading", percent := 5, message := "Loading conversion engine..." } ::
      (eng.events.map forwardedEvent ++
        [{ phase := "ready", percent := 100, message := "Conversion engine ready!" }]) := by
    rw [hdel]
    simp [List.map_map]
  refine ⟨hev, ?_, ?_⟩
  · intro hmono
    have hpc : (initializeConv (mkConverter bp) env eng true).deliveries.map
        (fun d => d.event.percent) =
        0 :: 5 :: (eng.events.map EngineEvent.percent ++ [100]) := by
      rw [hdel]
      simp [List.map_map]
      intro a _
      rfl
    rw [hpc]
    exact List.chain'_cons.mpr ⟨Nat.zero_le 5, hmono⟩
  · intro hph
    rw [hev]
    simp only [List.countP_cons, List.countP_append]
    have hzero : (eng.events.map forwardedEvent).countP (fun ev => ev.phase == "ready") = 0 := by
      rw [List.countP_eq_zero]
      intro ev hev2
      rcases List.mem_map.mp hev2 with ⟨e, he, rfl⟩
      have := hph e he
      simpa [forwardedEvent] using this
    rw [hzero]
    simp

/-- C9 witness: a concrete successful run with one well-behaved engine
event and a stray late event still yields monotone percents. -/
theorem initialize_progress_amended_witness :
    ((initializeConv (mkConverter none) goodEnv
      { events := [{ phase := "loading", percent := 50, message := "m" }],
        bootResult := Except.ok (),
        lateEvents := [{ phase := "loading", percent := 70, message := "z" }] } true).deliveries.map
      (fun d => d.event.percent)).Chain' (· ≤ ·) :=
  (initialize_progress_amended none goodEnv
    { events := [{ phase := "loading", percent := 50, message := "m" }],
      bootResult := Except.ok (),
      lateEvents := [{ phase := "loading", percent := 70, message := "z" }] }
    rfl rfl).2.1 (by
      show List.Chain' (· ≤ ·) [5, 50, 100]
      refine List.chain'_cons.mpr ⟨by omega, ?_⟩
      refine List.chain'_cons.mpr ⟨by omega, ?_⟩
      simp)

/-! ### C6 — concurrent initialize() callers -/

theorem lt_length_of_get?_eq_some {α : Type} {l : List α} {i : Nat} {a : α}
    (h : l.get? i = some a) : i < l.length := by
  by_contra hh
  push_neg at hh
  rw [List.get?_len_le hh] at h
  exact Option.noConfusion h

theorem get?_set_same {α : Type} (l : List α) (i : Nat) (x : α) (h : i < l.length) :
    (l.set i x).get? i = some x := by
  induction l generalizing i with
  | nil => simp at h
  | cons a t ih =>
    cases i with
    | zero => rfl
    | succ j =>
      have h2 : j < t.length := by simpa using h
      show (a :: t.set j x).get? (j + 1) = some x
      rw [List.get?_cons_succ]
      exact ih j h2

theorem get?_set_other {α : Type} (l : List α) (i j : Nat) (x : α) (h : i ≠ j) :
    (l.set i x).get? j = l.get? j := by
  induction l generalizing i j with
  | nil => simp
  | cons a t ih =>
    cases i with
    | zero =>
      cases j with
      | zero => exact absurd rfl h
      | succ j2 => rfl
    | succ i2 =>
      cases j with
      | zero => rfl
      | succ j2 =>
        show (a :: t.set i2 x).get? (j2 + 1) = (a :: t).get? (j2 + 1)
        rw [List.get?_cons_succ, List.get?_cons_succ]
        exact ih i2 j2 (fun e => h (by rw [e]))

theorem get?_append_len {α : Type} (l1 l2 : List α) (i : Nat) :
    (l1 ++ l2).get? (l1.length + i) = l2.get? i := by
  induction l1 with
  | nil => simp
  | cons a t ih =>
    show (a :: (t ++ l2)).get? (t.length + 1 + i) = l2.get? i
    have he : t.length + 1 + i = (t.length + i) + 1 := by omega
    rw [he, List.get?_cons_succ]
    exact ih

theorem set_append_len {α : Type} (l1 l2 : List α) (i : Nat) (x : α) :
    (l1 ++ l2).set (l1.length + i) x = l1 ++ l2.set i x := by
  induction l1 with
  | nil => simp
  | cons a t ih =>
    show (a :: (t ++ l2)).set (t.length + 1 + i) x = a :: (t ++ l2.set i x)
    have he : t.length + 1 + i = (t.length + i) + 1 := by omega
    rw [he]
    show a :: (t ++ l2).set (t.length + i) x = a :: (t ++ l2.set i x)
    rw [ih]

/-! Characterizations of one scheduler step. -/

theorem callerStep_none (env : Env) (boot : Except String Unit) (s : ConcState) (i : Nat)
    (h : s.callers.get? i = none) : callerStep env boot s i = s := by
  unfold callerStep
  rw [h]

theorem callerStep_settled (env : Env) (boot : Except String Unit) (s : ConcState) (i : Nat)
    (o : InitOutcome) (h : s.callers.get? i = some (CallerPC.settled o)) :
    callerStep env boot s i = s := by
  unfold callerStep
  rw [h]

theorem callerStep_waiting_busy (env : Env) (boot : Except String Unit) (s : ConcState)
    (i : Nat) (h : s.callers.get? i = some CallerPC.waiting)
    (hf : s.conv.initializing = true) : callerStep env boot s i = s := by
  unfold callerStep
  rw [h]
  dsimp only
  rw [hf]
  simp

theorem callerStep_waiting_free (env : Env) (boot : Except String Unit) (s : ConcState)
    (i : Nat) (h : s.callers.get? i = some CallerPC.waiting)
    (hf : s.conv.initializing = false) :
    callerStep env boot s i =
      { s with callers := s.callers.set i (CallerPC.settled InitOutcome.success) } := by
  unfold callerStep
  rw [h]
  dsimp only
  rw [hf]
  simp

theorem callerStep_entry_wait (env : Env) (boot : Except String Unit) (s : ConcState)
    (i : Nat) (h : s.callers.get? i = some CallerPC.entry)
    (h1 : s.conv.initialized = false) (h2 : s.conv.initializing = true) :
    callerStep env boot s i = { s with callers := s.callers.set i CallerPC.waiting } := by
  unfold callerStep
  rw [h]
  dsimp only
  rw [h1, h2]
  simp

theorem callerStep_entry_fresh (env : Env) (boot : Except String Unit) (s : ConcState)
    (i : Nat) (h : s.callers.get? i = some CallerPC.entry)
    (h1 : s.conv.initialized = false) (h2 : s.conv.initializing = false) :
    callerStep env boot s i =
      { s with conv := { s.conv with initializing := true },
               callers := s.callers.set i CallerPC.awaitEnv } := by
  unfold callerStep
  rw [h]
  dsimp only
  rw [h1, h2]
  simp

theorem callerStep_awaitEnv_err (env : Env) (boot : Except String Unit) (s : ConcState)
    (i : Nat) (e : ConvError) (h : s.callers.get? i = some CallerPC.awaitEnv)
    (he : (checkEnvironment env s.conv.basePath).1 = Except.error e) :
    callerStep env boot s i =
      { s with conv := { s.conv with initializing := false },
               callers := s.callers.set i (CallerPC.settled (InitOutcome.failure e)) } := by
  unfold callerStep
  rw [h]
  dsimp only
  rw [he]

theorem callerStep_awaitEnv_ok (env : Env) (boot : Except String Unit) (s : ConcState)
    (i : Nat) (h : s.callers.get? i = some CallerPC.awaitEnv)
    (he : (checkEnvironment env s.conv.basePath).1 = Except.ok ()) :
    callerStep env boot s i =
      { s with conv := { s.conv with converter := some () },
               boots := s.boots + 1,
               callers := s.callers.set i CallerPC.awaitBoot } := by
  unfold callerStep
  rw [h]
  dsimp only
  rw [he]

theorem callerStep_awaitBoot_err (env : Env) (boot : Except String Unit) (s : ConcState)
    (i : Nat) (m : String) (h : s.callers.get? i = some CallerPC.awaitBoot)
    (hb : boot = Except.error m) :
    callerStep env boot s i =
      { s with conv := { s.conv with initializing := false },
               callers := s.callers.set i
                 (CallerPC.settled (InitOutcome.failure (ConvError.engineBoot m))) } := by
  unfold callerStep
  rw [h]
  dsimp only
  rw [hb]

theorem callerStep_awaitBoot_ok (env : Env) (boot : Except String Unit) (s : ConcState)
    (i : Nat) (h : s.callers.get? i = some CallerPC.awaitBoot)
    (hb : boot = Except.ok ()) :
    callerStep env boot s i =
      { s with conv := { s.conv with initialized := true, initializing := false },
               callers := s.callers.set i (CallerPC.settled InitOutcome.success) } := by
  unfold callerStep
  rw [h]
  dsimp only
  rw [hb]

theorem schedRun_nil (env : Env) (boot : Except String Unit) (s : ConcState) :
    schedRun env boot s [] = s := rfl

theorem schedRun_cons (env : Env) (boot : Except String Unit) (s : ConcState) (i : Nat)
    (t : List Nat) :
    schedRun env boot s (i :: t) = schedRun env boot (callerStep env boot s i) t := rfl

theorem schedRun_append (env : Env) (boot : Except String Unit) (s : ConcState)
    (l1 l2 : List Nat) :
    schedRun env boot s (l1 ++ l2) = schedRun env boot (schedRun env boot s l1) l2 := by
  unfold schedRun
  rw [List.foldl_append]

theorem get?_replicate_eq {α : Type} (a : α) (n i : Nat) (b : α)
    (h : (List.replicate n a).get? i = some b) : b = a := by
  induction n generalizing i with
  | zero => simp at h
  | succ m ih =>
    rw [List.replicate_succ] at h
    cases i with
    | zero =>
      rw [List.get?_cons_zero] at h
      injection h with h2
      exact h2.symm
    | succ j =>
      rw [List.get?_cons_succ] at h
      exact ih j h

/-- Processing the entry segments of the remaining `k` same-tick callers,
while one initialization is in flight, turns each of them into a waiter. -/
theorem schedRun_waiters (env : Env) (boot : Except String Unit) (cv : ConverterState)
    (h1 : cv.initialized = false) (h2 : cv.initializing = true) (b : Nat) (w k : Nat) :
    schedRun env boot
      { conv := cv,
        callers := CallerPC.awaitEnv ::
          (List.replicate w CallerPC.waiting ++ List.replicate k CallerPC.entry),
        boots := b }
      (upFrom (w + 1) k) =
      { conv := cv,
        callers := CallerPC.awaitEnv :: List.replicate (w + k) CallerPC.waiting,
        boots := b } := by
  induction k generalizing w with
  | zero => simp [upFrom, schedRun_nil]
  | succ k ih =>
    have hup : upFrom (w + 1) (k + 1) = (w + 1) :: upFrom (w + 2) k := rfl
    rw [hup, schedRun_cons]
    have hget : (CallerPC.awaitEnv ::
        (List.replicate w CallerPC.waiting ++ List.replicate (k + 1) CallerPC.entry)).get?
          (w + 1) = some CallerPC.entry := by
      rw [List.get?_cons_succ]
      have h3 := get?_append_len (List.replicate w CallerPC.waiting)
        (List.replicate (k + 1) CallerPC.entry) 0
      rw [List.length_replicate] at h3
      simpa [List.replicate_succ] using h3
    rw [callerStep_entry_wait env boot _ _ hget h1 h2]
    have hset : (CallerPC.awaitEnv ::
        (List.replicate w CallerPC.waiting ++ List.replicate (k + 1) CallerPC.entry)).set
          (w + 1) CallerPC.waiting =
        CallerPC.awaitEnv ::
          (List.replicate (w + 1) CallerPC.waiting ++ List.replicate k CallerPC.entry) := by
      show CallerPC.awaitEnv ::
        (List.replicate w CallerPC.waiting ++ List.replicate (k + 1) CallerPC.entry).set
          w CallerPC.waiting = _
      have h4 := set_append_len (List.replicate w CallerPC.waiting)
        (List.replicate (k + 1) CallerPC.entry) 0 CallerPC.waiting
      rw [List.length_replicate] at h4
      simp only [Nat.add_zero] at h4
      rw [h4, List.replicate_succ]
      show CallerPC.awaitEnv ::
        (List.replicate w CallerPC.waiting ++ CallerPC.waiting :: List.replicate k CallerPC.entry) = _
      rw [List.append_cons, ← List.replicate_succ']
    rw [hset]
    have hres := ih (w + 1)
    have harith : w + 1 + k = w + (k + 1) := by omega
    rw [harith] at hres
    exact hres

/-- After the `n+1` same-tick calls run their entry segments, caller 0 is
at the environment check with the in-flight flag set and the other `n`
callers are polling waiters. -/
theorem concStart (n : Nat) (bp : Option String) (env : Env) (boot : Except String Unit) :
    schedRun env boot (freshConc (n + 1) bp) (upFrom 0 (n + 1)) =
      { conv := { mkConverter bp with initializing := true },
        callers := CallerPC.awaitEnv :: List.replicate n CallerPC.waiting,
        boots := 0 } := by
  have hup : upFrom 0 (n + 1) = 0 :: upFrom 1 n := rfl
  rw [hup, schedRun_cons]
  have hstate : callerStep env boot (freshConc (n + 1) bp) 0 =
      { conv := { mkConverter bp with initializing := true },
        callers := CallerPC.awaitEnv ::
          (List.replicate 0 CallerPC.waiting ++ List.replicate n CallerPC.entry),
        boots := 0 } := rfl
  rw [hstate]
  have hw := schedRun_waiters env boot { mkConverter bp with initializing := true }
    rfl rfl 0 0 n
  simpa using hw

/-- The invariant maintained by every schedule after the same-tick entry
phase of `n+1` concurrent callers on a fresh singleton: only caller 0 ever
performs the bootstrap, every other caller is still polling or settled
successfully, and caller 0's program counter determines the boot count and
(when settled) its outcome. -/
def ConcInv (env : Env) (bpR : String) (boot : Except String Unit) (s : ConcState) : Prop :=
  s.conv.basePath = bpR ∧
  (∀ i pc, s.callers.get? (i + 1) = some pc → waiterOK pc) ∧
  (s.callers.get? 0 = some CallerPC.awaitEnv ∨
    s.callers.get? 0 = some CallerPC.awaitBoot ∨
    ∃ o, s.callers.get? 0 = some (CallerPC.settled o)) ∧
  (s.callers.get? 0 = some CallerPC.awaitEnv →
    s.boots = 0 ∧ s.conv.initializing = true ∧ s.conv.initialized = false) ∧
  (s.callers.get? 0 = some CallerPC.awaitBoot →
    s.boots = 1 ∧ s.conv.initializing = true ∧ s.conv.initialized = false ∧
    (checkEnvironment env bpR).1 = Except.ok ()) ∧
  (∀ o, s.callers.get? 0 = some (CallerPC.settled o) →
    o = expectedOutcome env bpR boot ∧ s.boots = expectedBoots env bpR)

theorem concInv_start (n : Nat) (bp : Option String) (env : Env)
    (boot : Except String Unit) :
    ConcInv env (resolveBasePath bp) boot
      { conv := { mkConverter bp with initializing := true },
        callers := CallerPC.awaitEnv :: List.replicate n CallerPC.waiting,
        boots := 0 } := by
  refine ⟨rfl, ?_, Or.inl rfl, fun _ => ⟨rfl, rfl, rfl⟩, ?_, ?_⟩
  · intro i pc h
    rw [List.get?_cons_succ] at h
    exact Or.inl (get?_replicate_eq CallerPC.waiting n i pc h)
  · intro hx
    simp at hx
  · intro o hx
    simp at hx

theorem concInv_step (env : Env) (bpR : String) (boot : Except String Unit) (s : ConcState)
    (h : ConcInv env bpR boot s) (i : Nat) : ConcInv env bpR boot (callerStep env boot s i) := by
  obtain ⟨hbp, hrest, hpc0, hA, hB, hC⟩ := h
  cases hi : s.callers.get? i with
  | none =>
    rw [callerStep_none env boot s i hi]
    exact ⟨hbp, hrest, hpc0, hA, hB, hC⟩
  | some pc =>
    have hlen : i < s.callers.length := lt_length_of_get?_eq_some hi
    cases i with
    | zero =>
      rcases hpc0 with h0 | h0 | ⟨o, h0⟩
      · obtain ⟨hb0, hif, hiz⟩ := hA h0
        cases he : (checkEnvironment env s.conv.basePath).1 with
        | error e =>
          rw [callerStep_awaitEnv_err env boot s 0 e h0 he]
          have hbpR : (checkEnvironment env bpR).1 = Except.error e := by
            rw [← hbp]
            exact he
          refine ⟨hbp, ?_, ?_, ?_, ?_, ?_⟩
          · intro j pc2 hj
            rw [get?_set_other _ 0 (j + 1) _ (by omega)] at hj
            exact hrest j pc2 hj
          · exact Or.inr (Or.inr ⟨InitOutcome.failure e, get?_set_same _ 0 _ hlen⟩)
          · intro hx
            rw [get?_set_same _ 0 _ hlen] at hx
            simp at hx
          · intro hx
            rw [get?_set_same _ 0 _ hlen] at hx
            simp at hx
          · intro o2 hx
            rw [get?_set_same _ 0 _ hlen] at hx
            injection hx with hx2
            injection hx2 with hx3
            constructor
            · rw [← hx3]
              unfold expectedOutcome
              rw [hbpR]
            · show s.boots = expectedBoots env bpR
              unfold expectedBoots
              rw [hbpR]
              exact hb0
        | ok u =>
          cases u
          rw [callerStep_awaitEnv_ok env boot s 0 h0 he]
          have hbpR : (checkEnvironment env bpR).1 = Except.ok () := by
            rw [← hbp]
            exact he
          refine ⟨hbp, ?_, ?_, ?_, ?_, ?_⟩
          · intro j pc2 hj
            rw [get?_set_other _ 0 (j + 1) _ (by omega)] at hj
            exact hrest j pc2 hj
          · exact Or.inr (Or.inl (get?_set_same _ 0 _ hlen))
          · intro hx
            rw [get?_set_same _ 0 _ hlen] at hx
            simp at hx
          · intro _
            refine ⟨?_, hif, hiz, hbpR⟩
            rw [hb0]
          · intro o2 hx
            rw [get?_set_same _ 0 _ hlen] at hx
            simp at hx
      · obtain ⟨hb1, hif, hiz, henvok⟩ := hB h0
        cases boot with
        | error m =>
          rw [callerStep_awaitBoot_err env (Except.error m) s 0 m h0 rfl]
          refine ⟨hbp, ?_, ?_, ?_, ?_, ?_⟩
          · intro j pc2 hj
            rw [get?_set_other _ 0 (j + 1) _ (by omega)] at hj
            exact hrest j pc2 hj
          · exact Or.inr (Or.inr
              ⟨InitOutcome.failure (ConvError.engineBoot m), get?_set_same _ 0 _ hlen⟩)
          · intro hx
            rw [get?_set_same _ 0 _ hlen] at hx
            simp at hx
          · intro hx
            rw [get?_set_same _ 0 _ hlen] at hx
            simp at hx
          · intro o2 hx
            rw [get?_set_same _ 0 _ hlen] at hx
            injection hx with hx2
            injection hx2 with hx3
            constructor
            · rw [← hx3]
              unfold expectedOutcome
              rw [henvok]
            · show s.boots = expectedBoots env bpR
              unfold expectedBoots
              rw [henvok]
              exact hb1
        | ok v =>
          cases v
          rw [callerStep_awaitBoot_ok env (Except.ok ()) s 0 h0 rfl]
          refine ⟨hbp, ?_, ?_, ?_, ?_, ?_⟩
          · intro j pc2 hj
            rw [get?_set_other _ 0 (j + 1) _ (by omega)] at hj
            exact hrest j pc2 hj
          · exact Or.inr (Or.inr ⟨InitOutcome.success, get?_set_same _ 0 _ hlen⟩)
          · intro hx
            rw [get?_set_same _ 0 _ hlen] at hx
            simp at hx
          · intro hx
            rw [get?_set_same _ 0 _ hlen] at hx
            simp at hx
          · intro o2 hx
            rw [get?_set_same _ 0 _ hlen] at hx
            injection hx with hx2
            injection hx2 with hx3
            constructor
            · rw [← hx3]
              unfold expectedOutcome
              rw [henvok]
            · show s.boots = expectedBoots env bpR
              unfold expectedBoots
              rw [henvok]
              exact hb1
      · rw [callerStep_settled env boot s 0 o h0]
        exact ⟨hbp, hrest, Or.inr (Or.inr ⟨o, h0⟩), hA, hB, hC⟩
    | succ j =>
      rcases hrest j pc hi with hw | hw
      · rw [hw] at hi
        cases hf : s.conv.initializing with
        | true =>
          rw [callerStep_waiting_busy env boot s (j + 1) hi hf]
          exact ⟨hbp, hrest, hpc0, hA, hB, hC⟩
        | false =>
          rw [callerStep_waiting_free env boot s (j + 1) hi hf]
          have h00 := get?_set_other s.callers (j + 1) 0
            (CallerPC.settled InitOutcome.success) (by omega)
          refine ⟨hbp, ?_, ?_, ?_, ?_, ?_⟩
          · intro j2 pc2 hj2
            rcases eq_or_ne (j + 1) (j2 + 1) with hjj | hjj
            · rw [← hjj] at hj2
              rw [get?_set_same _ _ _ hlen] at hj2
              injection hj2 with hj3
              exact Or.inr hj3.symm
            · rw [get?_set_other _ _ _ _ hjj] at hj2
              exact hrest j2 pc2 hj2
          · rcases hpc0 with h0 | h0 | ⟨o, h0⟩
            · exact Or.inl (by rw [h00]; exact h0)
            · exact Or.inr (Or.inl (by rw [h00]; exact h0))
            · exact Or.inr (Or.inr ⟨o, by rw [h00]; exact h0⟩)
          · intro hx
            rw [h00] at hx
            exact hA hx
          · intro hx
            rw [h00] at hx
            exact hB hx
          · intro o2 hx
            rw [h00] at hx
            exact hC o2 hx
      · rw [hw] at hi
        rw [callerStep_settled env boot s (j + 1) InitOutcome.success hi]
        exact ⟨hbp, hrest, hpc0, hA, hB, hC⟩

theorem concInv_run (env : Env) (bpR : String) (boot : Except String Unit) (s : ConcState)
    (h : ConcInv env bpR boot s) (sched : List Nat) :
    ConcInv env bpR boot (schedRun env boot s sched) := by
  induction sched generalizing s with
  | nil => exact h
  | cons i t ih => exact ih (callerStep env boot s i) (concInv_step env bpR boot s h i)

/-- C6, counterexample.  The claim states all N concurrent callers observe
a consistent outcome (all succeed or all fail together).  False: with two
concurrent callers and an engine whose boot fails, the bootstrap runs
exactly once, the booting caller rejects with the engine-boot error, and
the waiting caller — whose polling loop merely rechecks the in-flight flag
and then returns — resolves successfully. -/
theorem initialize_concurrent_inconsistent_outcomes :
    (concurrentRun 2 none goodEnv (Except.error "boot failed") [0, 0, 1]).boots = 1 ∧
    (concurrentRun 2 none goodEnv (Except.error "boot failed") [0, 0, 1]).callers =
      [CallerPC.settled (InitOutcome.failure (ConvError.engineBoot "boot failed")),
       CallerPC.settled InitOutcome.success] :=
  ⟨rfl, rfl⟩

/-- C6, amended.  For every number `n+1` of concurrent `initialize()`
calls on a fresh singleton and every event-loop schedule: the engine boot
procedure runs at most once (exactly once by the time caller 0 settles,
whenever the environment check passes); every caller other than the one
performing the bootstrap is either still polling or settled successfully —
so the boot outcome is observed only by the booting caller, and outcomes
are *not* consistent across callers when the bootstrap fails. -/
theorem initialize_concurrent_amended (n : Nat) (bp : Option String) (env : Env)
    (boot : Except String Unit) (sched : List Nat) :
    (concurrentRun (n + 1) bp env boot sched).boots ≤ 1 ∧
    (∀ i pc, (concurrentRun (n + 1) bp env boot sched).callers.get? (i + 1) = some pc →
      waiterOK pc) ∧
    (∀ o, (concurrentRun (n + 1) bp env boot sched).callers.get? 0 =
        some (CallerPC.settled o) →
      o = expectedOutcome env (resolveBasePath bp) boot ∧
      (concurrentRun (n + 1) bp env boot sched).boots = expectedBoots env (resolveBasePath bp)) := by
  have hinv : ConcInv env (resolveBasePath bp) boot (concurrentRun (n + 1) bp env boot sched) := by
    have hsplit : concurrentRun (n + 1) bp env boot sched =
        schedRun env boot (schedRun env boot (freshConc (n + 1) bp) (upFrom 0 (n + 1))) sched := by
      unfold concurrentRun
      rw [schedRun_append]
    rw [hsplit, concStart]
    exact concInv_run env (resolveBasePath bp) boot _ (concInv_start n bp env boot) sched
  obtain ⟨hbp, hrest, hpc0, hA, hB, hC⟩ := hinv
  refine ⟨?_, hrest, hC⟩
  rcases hpc0 with h0 | h0 | ⟨o, h0⟩
  · rw [(hA h0).1]
    omega
  · rw [(hB h0).1]
  · rw [(hC o h0).2]
    unfold expectedBoots
    cases (checkEnvironment env (resolveBasePath bp)).1 <;> simp

/-- C6 witness: on the concrete failing-boot two-caller run, caller 0's
settled outcome is the expected boot failure and the boot ran exactly
once. -/
theorem initialize_concurrent_amended_witness :
    InitOutcome.failure (ConvError.engineBoot "boot failed") =
      expectedOutcome goodEnv (resolveBasePath none) (Except.error "boot failed") ∧
    (concurrentRun 2 none goodEnv (Except.error "boot failed") [0, 0, 1]).boots =
      expectedBoots goodEnv (resolveBasePath none) :=
  (initialize_concurrent_amended 1 none goodEnv (Except.error "boot failed") [0, 0, 1]).2.2
    (InitOutcome.failure (ConvError.engineBoot "boot failed")) rfl

end PdfCraft
